import Mathlib

/-!
A shallow embedding of the `SheetDataAccess` / `SheetDataCollection` classes
(`src/SheetDataAccess.js`) with proofs about their caching and mutation
protocol.

Modelling conventions:
* Sheet cells are the strings the Apps Script API returns (`""` for blank).
* A JS record object is an ordered association list of properties; a missing
  property (JS `undefined`, the code also treats `null` alike for `_key`)
  is `Option.none` under `objGet`.
* The sheet grid is identified with its used range: `getLastRow`/`getMaxRows`
  are the number of stored rows, `getLastColumn`/`getMaxColumns` the widest
  stored row.
* Errors thrown by the JS code become `Except.error` values that carry the
  collection state at the moment of the throw, so partial writes made before
  an error stay visible.
* The script lock of `batch` is modelled by the time (ms) at which the lock
  becomes free; `tryLock(waitMs)` succeeds exactly when that time is within
  the wait.
-/

namespace SdaSpec

/-- A JS value stored in a record property: a string (sheet cell text) or a
number (row keys such as `_key`). -/
inductive Val where
  | vstr (s : String)
  | vnum (n : Nat)
deriving DecidableEq, Repr

/-- A JS record object: ordered property list; `objSet` overwrites the first
binding of a key in place, as JS property assignment does. -/
abbrev Obj := List (String × Val)

/-- Property read on an association list (JS `m[k]`; `none` is `undefined`). -/
def assocGet {α : Type} : List (String × α) → String → Option α
  | [], _ => none
  | p :: t, k => if p.fst == k then some p.snd else assocGet t k

/-- Property assignment on an association list (JS `m[k] = v`): overwrite the
existing binding in place, or append a new one. -/
def assocSet {α : Type} : List (String × α) → String → α → List (String × α)
  | [], k, v => [(k, v)]
  | p :: t, k, v => if p.fst == k then (k, v) :: t else p :: assocSet t k v

/-- JS `rec[k]`. -/
def objGet (o : Obj) (k : String) : Option Val := assocGet o k

/-- JS `rec[k] = v`. -/
def objSet (o : Obj) (k : String) (v : Val) : Obj := assocSet o k v

/-- JS `String(x)` coercion as used for object property keys and for the
optimistic single-cell comparison: `String(undefined) = "undefined"`. -/
def valToKey : Option Val → String
  | none => "undefined"
  | some (.vstr s) => s
  | some (.vnum n) => toString n

/-- The cell text written for a record field by `setValues`/`appendRow`; a
missing field yields a blank cell. -/
def valToCell : Option Val → String
  | none => ""
  | some (.vstr s) => s
  | some (.vnum n) => toString n

/-- JS truthiness of a property value, as in `!rec._key`. -/
def truthyVal : Option Val → Bool
  | none => false
  | some (.vstr s) => !(s == "")
  | some (.vnum n) => !(n == 0)

/-- The backing sheet: a grid of cell texts; row 1 is the header row. -/
structure Sheet where
  rows : List (List String)
deriving DecidableEq, Repr

/-- Pad (or cut) a stored row to the width of a read range; cells outside the
stored content read as `""`. -/
def padRow (cols : Nat) (r : List String) : List String :=
  r.take cols ++ List.replicate (cols - r.length) ""

/-- `getLastColumn` / `getMaxColumns`: the widest stored row. -/
def Sheet.lastColumn (s : Sheet) : Nat :=
  s.rows.foldr (fun r m => max r.length m) 0

/-- `getLastRow` / `getMaxRows`: the number of stored rows. -/
def Sheet.lastRow (s : Sheet) : Nat := s.rows.length

/-- `getRange(r, 1, 1, cols).getValues()[0]` (`r` 1-based). -/
def Sheet.readRow (s : Sheet) (r cols : Nat) : List String :=
  padRow cols (s.rows.getD (r - 1) [])

/-- One cell text at 1-based row `r`, 0-based column `c`; blank outside the
stored grid. -/
def Sheet.readCell (s : Sheet) (r : Nat) (c : Nat) : String :=
  (s.rows.getD (r - 1) []).getD c ""

/-- `String(range.getValues()[0][i])` for a width-`cols` range: an in-range
blank cell reads as `""`, while an index past the range width is a JS
`undefined`, which `String` renders as `"undefined"`. -/
def Sheet.rangeCellStr (s : Sheet) (r cols i : Nat) : String :=
  if i < cols then s.readCell r i else "undefined"

/-- `setValues` on a single 1-based row; writing past the grid extends it. -/
def Sheet.setRow (s : Sheet) (r : Nat) (vals : List String) : Sheet :=
  if r - 1 < s.rows.length then ⟨s.rows.set (r - 1) vals⟩
  else ⟨s.rows ++ List.replicate (r - 1 - s.rows.length) [] ++ [vals]⟩

/-- A block `setValues` starting at 1-based row `r`. -/
def Sheet.setRowsFrom : Sheet → Nat → List (List String) → Sheet
  | s, _, [] => s
  | s, r, v :: vs => (s.setRow r v).setRowsFrom (r + 1) vs

/-- `appendRow`: appends directly below the stored content. -/
def Sheet.appendRow (s : Sheet) (vals : List String) : Sheet :=
  ⟨s.rows ++ [vals]⟩

/-- `deleteRows(start, n)` (1-based `start`). -/
def Sheet.deleteRows (s : Sheet) (start n : Nat) : Sheet :=
  ⟨s.rows.take (start - 1) ++ s.rows.drop (start - 1 + n)⟩

/-- `getSheetValues(1, 1, lastRow, cols)`: every stored row padded to
`cols`; this is `_values()` when `cols = lastColumn`. -/
def Sheet.valuesAll (s : Sheet) (cols : Nat) : List (List String) :=
  s.rows.map (padRow cols)

/-- The error taxonomy of the thrown `Error`s, by call site. -/
inductive Err where
  | staleWrite
  | writeConflict
  | lockTimeout
  | notFound
  | conflict
  | txComplete
  | addFailed
  | invalidKey
deriving DecidableEq, Repr

/-- In-memory state of one `SheetDataCollection` (no schema configured; the
pluggable schema hook is an external collaborator and `_getRecordsToSave` /
`_getFromSchemaRecords` then reduce to shallow copies). -/
structure Collection where
  sheet : Sheet
  pkColumnIndex : Nat
  dataCache : Option (List Obj)
  indexCache : List (String × List (String × Obj))
  relatedCache : List (String × List (String × List Obj))
  headerRow : List String
  columnCount : Nat
deriving Repr

/-- `SheetDataAccess.ROW_INDEX_OFFSET`. -/
def ROW_INDEX_OFFSET : Nat := 2

/-- `SheetDataAccess.getRowAsObject`, generalised over the value stored in
`_key`: the JS code first sets `_key` and then assigns one property per
header positionally (later assignments overwrite earlier ones). -/
def getRowAsObjectKey (row : List String) (keyVal : Nat) (headers : List String) : Obj :=
  headers.enum.foldl
    (fun o p => objSet o p.snd (Val.vstr (row.getD p.fst "")))
    [("_key", Val.vnum keyVal)]

/-- `getRowAsObject(row, index, headers)`: `_key = index + ROW_INDEX_OFFSET`. -/
def getRowAsObject (row : List String) (index : Nat) (headers : List String) : Obj :=
  getRowAsObjectKey row (index + ROW_INDEX_OFFSET) headers

/-- `clearCached()`: drops the materialised data and both index caches. -/
def clearCached (c : Collection) : Collection :=
  { c with dataCache := none, indexCache := [], relatedCache := [] }

/-- `_init()`: records the column count and, when no data cache is present,
re-reads the header row from row 1. -/
def Collection.initOp (c : Collection) : Collection :=
  { c with
    columnCount := c.sheet.lastColumn,
    headerRow := if c.dataCache.isSome then c.headerRow
                 else c.sheet.readRow 1 c.sheet.lastColumn }

/-- The `values.forEach` loop of `data()`: skip rows whose primary-key cell
is blank, keeping the running 0-based sheet index `i` used for `_key`. -/
def buildRecords (pk : Nat) (headers : List String) : List (List String) → Nat → List Obj
  | [], _ => []
  | row :: rest, i =>
    if row.getD pk "" ≠ "" then
      getRowAsObject row i headers :: buildRecords pk headers rest (i + 1)
    else buildRecords pk headers rest (i + 1)

/-- The record list `data()` materialises when its cache is empty. -/
def freshData (c : Collection) : List Obj :=
  buildRecords c.pkColumnIndex ((c.sheet.valuesAll c.sheet.lastColumn).headD [])
    ((c.sheet.valuesAll c.sheet.lastColumn).tail) 0

/-- `data()`: cached records, or a fresh materialisation (which also refreshes
`headerRow`, as `values.shift()` does). -/
def Collection.dataOp (c : Collection) : List Obj × Collection :=
  match c.dataCache with
  | some d => (d, c)
  | none =>
      let values := c.sheet.valuesAll c.sheet.lastColumn
      let d := buildRecords c.pkColumnIndex (values.headD []) values.tail 0
      (d, { c with dataCache := some d, headerRow := values.headD [] })

/-- The unique index `index(key)` builds: later records silently overwrite
earlier ones sharing a (string-coerced) value. -/
def buildIndex (d : List Obj) (key : String) : List (String × Obj) :=
  d.foldl (fun m r => assocSet m (valToKey (objGet r key)) r) []

/-- `index(key)`: cached, or built from `data()` and cached. -/
def Collection.indexOp (c : Collection) (key : String) :
    List (String × Obj) × Collection :=
  match assocGet c.indexCache key with
  | some idx => (idx, c)
  | none =>
      let dres := c.dataOp
      let idx := buildIndex dres.fst key
      (idx, { dres.snd with indexCache := assocSet dres.snd.indexCache key idx })

/-- The one-to-many map `related(key)` builds, preserving row order. -/
def buildRelated (d : List Obj) (key : String) : List (String × List Obj) :=
  d.foldl
    (fun m r =>
      match assocGet m (valToKey (objGet r key)) with
      | none => assocSet m (valToKey (objGet r key)) [r]
      | some l => assocSet m (valToKey (objGet r key)) (l ++ [r]))
    []

/-- `related(key)`: cached, or built from `data()` and cached. -/
def Collection.relatedOp (c : Collection) (key : String) :
    List (String × List Obj) × Collection :=
  match assocGet c.relatedCache key with
  | some rel => (rel, c)
  | none =>
      let dres := c.dataOp
      let rel := buildRelated dres.fst key
      (rel, { dres.snd with relatedCache := assocSet dres.snd.relatedCache key rel })

/-- `find(key, index)`: pure cache path through `index(index)`; the lookup
key is string-coerced by the JS property access. -/
def Collection.findOp (c : Collection) (keyVal : Option Val) (idxName : String) :
    Option Obj × Collection :=
  let ires := c.indexOp idxName
  (assocGet ires.fst (valToKey keyVal), ires.snd)

/-- `enforceUnique(rec, prop)`: a record without truthy `_key` is checked
against `index(prop)`; a record with `_key` by a linear scan over `data()`
that excludes its own `_key`. -/
def Collection.enforceUniqueOp (c : Collection) (rec : Obj) (prop : String) :
    Except Err Unit × Collection :=
  if truthyVal (objGet rec "_key") = false then
    let ires := c.indexOp prop
    if (assocGet ires.fst (valToKey (objGet rec prop))).isSome then
      (Except.error Err.conflict, ires.snd)
    else (Except.ok (), ires.snd)
  else
    let dres := c.dataOp
    let others := dres.fst.filter (fun oth => !(decide (objGet oth "_key" = objGet rec "_key")))
    if others.any (fun oth => decide (objGet oth prop = objGet rec prop)) then
      (Except.error Err.conflict, dres.snd)
    else (Except.ok (), dres.snd)

/-- A record's `_key` read as the (1-based) row number handed to `getRange`;
a missing, non-numeric or non-positive key makes `getRange` throw. -/
def keyNatOf (rec : Obj) : Option Nat :=
  match objGet rec "_key" with
  | some (.vnum n) => if n = 0 then none else some n
  | _ => none

/-- The `recordsToSave.forEach(record => this._updateRow(...))` loop of
`update()`: per record, the optimistic single-cell check
(`String(range.getValues()[0][pk]) !== String(recordValues[pk])`), then the
row write; the loop stops at the first throw, keeping earlier writes. -/
def updateRowsGo : Collection → List Obj → Except Err Unit × Collection
  | c, [] => (Except.ok (), c)
  | c, record :: rest =>
      let recordValues := c.headerRow.map (objGet record)
      match keyNatOf record with
      | none => (Except.error Err.invalidKey, c)
      | some k =>
          if c.sheet.rangeCellStr k c.columnCount c.pkColumnIndex ≠
              valToKey (recordValues.getD c.pkColumnIndex none) then
            (Except.error Err.staleWrite, c)
          else
            updateRowsGo { c with sheet := c.sheet.setRow k (recordValues.map valToCell) } rest

/-- Shared tail of the bulk mutators: propagate an error, or report the
saved records and clear the caches. -/
def finishMutation (out : List Obj) :
    Except Err Unit × Collection → Except Err (List Obj) × Collection
  | (Except.error e, c1) => (Except.error e, c1)
  | (Except.ok _, c1) => (Except.ok out, clearCached c1)

/-- `update(records)`. -/
def Collection.update (c : Collection) (records : List Obj) :
    Except Err (List Obj) × Collection :=
  if records.isEmpty then (Except.ok [], c)
  else finishMutation records (updateRowsGo c.initOp records)

/-- The `records.forEach` loop of `delete()`: optimistic single-cell check,
then overwrite the row with blanks (`new Array(COLUMN_COUNT)`). -/
def deleteRowsGo : Collection → List Obj → Except Err Unit × Collection
  | c, [] => (Except.ok (), c)
  | c, record :: rest =>
      let recordValues := c.headerRow.map (objGet record)
      match keyNatOf record with
      | none => (Except.error Err.invalidKey, c)
      | some k =>
          if c.sheet.rangeCellStr k c.columnCount c.pkColumnIndex ≠
              valToKey (recordValues.getD c.pkColumnIndex none) then
            (Except.error Err.staleWrite, c)
          else
            deleteRowsGo { c with sheet := c.sheet.setRow k (List.replicate c.columnCount "") } rest

/-- `delete(records)`; note the source has no empty-input guard here, so the
caches are cleared even for an empty list. -/
def Collection.deleteOp (c : Collection) (records : List Obj) :
    Except Err Unit × Collection :=
  match deleteRowsGo c.initOp records with
  | (Except.error e, c1) => (Except.error e, c1)
  | (Except.ok _, c1) => (Except.ok (), clearCached c1)

/-- `add(records)`: assign sequential `_key`s, check that the first
destination primary-key cell is still falsy (`!!range.getValues()[0][pk]`),
then write the whole block. -/
def Collection.add (c : Collection) (records : List Obj) :
    Except Err (List Obj) × Collection :=
  if records.isEmpty then (Except.ok [], c)
  else
    let ci := c.initOp
    let rowCount := ci.sheet.lastRow
    let keyed := records.enum.map
      (fun p => objSet p.snd "_key" (Val.vnum (rowCount + p.fst + 1)))
    let recordArrays := keyed.map (fun r => (ci.headerRow.map (objGet r)).map valToCell)
    if ci.sheet.readCell (rowCount + 1) ci.pkColumnIndex ≠ "" then
      (Except.error Err.writeConflict, ci)
    else
      (Except.ok keyed,
        clearCached { ci with sheet := ci.sheet.setRowsFrom (rowCount + 1) recordArrays })

/-- Case folding at the character-list level (`String.toLower` itself is
defined by well-founded recursion and does not evaluate definitionally). -/
def lowerChars (s : String) : List Char := s.data.map Char.toLower

/-- Whether `needle` occurs as a contiguous run inside `hay`. -/
def containsSeq : List Char → List Char → Bool
  | needle, [] => needle.isEmpty
  | needle, c :: t => needle.isPrefixOf (c :: t) || containsSeq needle t

/-- The TextFinder match used by `addOne`: the Apps Script default finder is
a case-insensitive substring search; an empty search text finds nothing. -/
def textMatches (cell q : String) : Bool :=
  !(q == "") && containsSeq (lowerChars q) (lowerChars cell)

/-- `range.createTextFinder(q).findNext()` on the single-column range that
starts at 1-based row `lo` and spans `numRows` rows: the first row of the
stored grid, inside that range, whose cell matches. -/
def findNextRow (s : Sheet) (lo numRows col : Nat) (q : String) : Option Nat :=
  (List.range' lo (min (lo + numRows - 1) s.lastRow + 1 - lo)).find?
    (fun r => textMatches (s.readCell r col) q)

/-- `addOne(record)`: append one row, then locate the written primary-key
value with a text finder over the column range that starts at the previous
last row; its row number becomes `_key`. A miss throws the generic add
error. -/
def Collection.addOne (c : Collection) (record : Obj) :
    Except Err Obj × Collection :=
  let ci := c.initOp
  let startingRowCount := ci.sheet.lastRow
  let rowVals := ci.headerRow.map (objGet record)
  let s1 := ci.sheet.appendRow (rowVals.map valToCell)
  match findNextRow s1 startingRowCount s1.lastRow ci.pkColumnIndex
      (valToKey (rowVals.getD ci.pkColumnIndex none)) with
  | none => (Except.error Err.addFailed, { ci with sheet := s1 })
  | some r =>
      (Except.ok (objSet record "_key" (Val.vnum r)), clearCached { ci with sheet := s1 })

/-- `upsertOne(record)`: route by `_key` presence to `addOne` or to a
one-element `update`. -/
def Collection.upsertOne (c : Collection) (record : Obj) :
    Except Err Obj × Collection :=
  if (objGet record "_key").isNone then c.addOne record
  else
    match c.update [record] with
    | (Except.ok out, c1) => (Except.ok (out.headD []), c1)
    | (Except.error e, c1) => (Except.error e, c1)

/-- Rebuild `upsert`'s return list: the JS code returns the partitioned
records in their original order; `add` mutated the keyless ones in place,
so they are replaced here by their keyed versions. -/
def mergeUpsertResults : List Obj → List Obj → List Obj
  | [], _ => []
  | r :: rest, keyedAdds =>
      if (objGet r "_key").isSome then r :: mergeUpsertResults rest keyedAdds
      else
        match keyedAdds with
        | [] => r :: mergeUpsertResults rest []
        | a :: ks => a :: mergeUpsertResults rest ks

/-- `upsert(records)`: partition by `_key` presence, `update` then `add`,
clear the caches, return everything. -/
def Collection.upsert (c : Collection) (records : List Obj) :
    Except Err (List Obj) × Collection :=
  if records.isEmpty then (Except.ok [], c)
  else
    let ci := c.initOp
    let updates := records.filter (fun r => (objGet r "_key").isSome)
    let adds := records.filter (fun r => (objGet r "_key").isNone)
    match ci.update updates with
    | (Except.error e, c1) => (Except.error e, c1)
    | (Except.ok _, c1) =>
        match c1.add adds with
        | (Except.error e, c2) => (Except.error e, c2)
        | (Except.ok keyedAdds, c2) =>
            (Except.ok (mergeUpsertResults records keyedAdds), clearCached c2)

/-- The `patches.map` loop of `patch()`: look each patch's `_key` up through
`find`, throw `NotFoundError` on a miss, else merge
(`{ ...existing, ...patch }`). -/
def patchGo : Collection → List Obj → Except Err (List Obj) × Collection
  | c, [] => (Except.ok [], c)
  | c, p :: rest =>
      let fres := c.findOp (objGet p "_key") "_key"
      match fres.fst with
      | none => (Except.error Err.notFound, fres.snd)
      | some existing =>
          match patchGo fres.snd rest with
          | (Except.error e, c2) => (Except.error e, c2)
          | (Except.ok tail, c2) =>
              (Except.ok (p.foldl (fun o q => objSet o q.fst q.snd) existing :: tail), c2)

/-- `patch(patches)`: merge each patch onto the record found by `_key`, then
route through `update`. -/
def Collection.patch (c : Collection) (patches : List Obj) :
    Except Err (List Obj) × Collection :=
  if patches.isEmpty then (Except.ok [], c)
  else
    let ci := c.initOp
    match patchGo ci patches with
    | (Except.error e, c1) => (Except.error e, c1)
    | (Except.ok merged, c1) => c1.update merged

/-- The lock-wait constant of `batch()`: `lock.tryLock(30 * 1000)`. -/
def batchLockWaitMs : Nat := 30 * 1000

/-- The script lock: `lockFreeAtMs` is the time (ms from the call) at which
the lock becomes free (`none`: never during this call); `tryLock(waitMs)`
succeeds exactly when that happens within the wait. -/
def tryLockAcquired (lockFreeAtMs : Option Nat) (waitMs : Nat) : Bool :=
  match lockFreeAtMs with
  | none => false
  | some t => decide (t ≤ waitMs)

/-- `rec._key - ROW_INDEX_OFFSET`, the splice offset used by `batch()` (with
the JS number coercion of a string key; the model covers persisted keys,
which are ≥ 2). -/
def batchOffset (rec : Obj) : Nat :=
  match objGet rec "_key" with
  | some (.vnum n) => n - ROW_INDEX_OFFSET
  | some (.vstr s) => s.toNat?.getD 0 - ROW_INDEX_OFFSET
  | none => 0

/-- `data.splice(i, 1, x)`: replace the element at `i`; JS clamps a start
index past the end to the length, so it then just appends. -/
def spliceReplace (l : List (List String)) (i : Nat) (x : List String) :
    List (List String) :=
  if i < l.length then l.set i x else l ++ [x]

/-- `wipe()` with no argument: clear row 2, then delete every row below it,
leaving the header row and one blank row. -/
def wipeSheet (s : Sheet) : Sheet :=
  let rowsToWipe := s.lastRow - 1
  if rowsToWipe = 0 then s
  else
    let s1 := s.setRow 2 (List.replicate s.lastColumn "")
    let remaining := rowsToWipe - 1
    if 0 < remaining then s1.deleteRows 3 remaining else s1

/-- `batch(records)`: read the data block directly from the sheet, splice
replacements at `_key`-derived offsets, append keyless records (without
assigning them `_key`s), then — only if the lock is acquired in time — wipe
and rewrite the whole block below the header in one `setValues`. -/
def Collection.batch (c : Collection) (records : List Obj)
    (lockFreeAtMs : Option Nat) : Except Err (List Obj) × Collection :=
  if records.isEmpty then (Except.ok records, c)
  else
    let ci := c.initOp
    let updates := records.filter (fun r => (objGet r "_key").isSome)
    let adds := records.filter (fun r => (objGet r "_key").isNone)
    let dataRows := (ci.sheet.valuesAll ci.sheet.lastColumn).tail
    let spliced := updates.foldl
      (fun rows rec => spliceReplace rows (batchOffset rec)
        ((ci.headerRow.map (objGet rec)).map valToCell))
      dataRows
    let allRows := spliced ++ adds.map (fun rec => (ci.headerRow.map (objGet rec)).map valToCell)
    if tryLockAcquired lockFreeAtMs batchLockWaitMs = false then
      (Except.error Err.lockTimeout, ci)
    else
      (Except.ok records,
        clearCached { ci with sheet := (wipeSheet ci.sheet).setRowsFrom 2 allRows })

/-- The closure state captured by `preflight(records)`: the validated
records and the `transacted` flag. -/
structure Preflight where
  recordsToSave : List Obj
  transacted : Bool
deriving Repr

/-- `preflight(records)` (list form of the `records` argument): validate
once (shallow copies without a schema), start untransacted. -/
def Collection.preflightOp (_c : Collection) (records : List Obj) : Preflight :=
  ⟨records, false⟩

/-- The six commit actions a preflight object exposes. -/
inductive CommitKind where
  | caddOne
  | cadd
  | cupdate
  | cbatch
  | cupsert
  | cupsertOne
deriving DecidableEq, Repr

/-- The underlying operation of one preflight commit action, on the
validated records (`bypassSchema` is forced; results normalised to lists).
`recordsToSave[0]` of an empty list is `undefined`, which `addOne` /
`upsertOne` answer with a `null` result and no write. -/
def runCommit (k : CommitKind) (recs : List Obj) (c : Collection)
    (lockFreeAtMs : Option Nat) : Except Err (List Obj) × Collection :=
  match k with
  | .caddOne =>
      match recs.head? with
      | none => (Except.ok [], c)
      | some r =>
          match c.addOne r with
          | (Except.ok v, c1) => (Except.ok [v], c1)
          | (Except.error e, c1) => (Except.error e, c1)
  | .cadd => c.add recs
  | .cupdate => c.update recs
  | .cbatch => c.batch recs lockFreeAtMs
  | .cupsert => c.upsert recs
  | .cupsertOne =>
      match recs.head? with
      | none => (Except.ok [], c)
      | some r =>
          match c.upsertOne r with
          | (Except.ok v, c1) => (Except.ok [v], c1)
          | (Except.error e, c1) => (Except.error e, c1)

/-- The `transact` wrapper: refuse when already transacted; otherwise run
the action and set the flag only after it returns (a throwing action leaves
the flag unset). -/
def commitOp (k : CommitKind) (p : Preflight) (c : Collection)
    (lockFreeAtMs : Option Nat) : Except Err (List Obj) × Preflight × Collection :=
  if p.transacted then (Except.error Err.txComplete, p, c)
  else
    match runCommit k p.recordsToSave c lockFreeAtMs with
    | (Except.ok v, c1) => (Except.ok v, { p with transacted := true }, c1)
    | (Except.error e, c1) => (Except.error e, p, c1)

/-- The `record()` accessor of a preflight object: no transact guard. -/
def preflightRecord (p : Preflight) : Option Obj := p.recordsToSave.head?

/-- The `records()` accessor of a preflight object: no transact guard. -/
def preflightRecords (p : Preflight) : List Obj := p.recordsToSave

/-- Just enough of the JS value universe to state what
`!this._data === null` evaluates to. -/
inductive JsVal where
  | jbool (b : Bool)
  | jnull
deriving DecidableEq, Repr

/-- JS strict equality against `null`: only `null === null` holds; a Boolean
is never strictly equal to `null`. -/
def jsStrictEqNull : JsVal → Bool
  | .jnull => true
  | _ => false

/-- The branch condition `!this._data === null` of `lookup` (and `many`):
`!this._data` is a Boolean, which `===` then compares with `null`. -/
def lookupCond (d : Option (List Obj)) : Bool :=
  jsStrictEqNull (JsVal.jbool (!d.isSome))

/-- One cell against the text-finder options used by `fts`
(`matchEntireCell`, `matchCase`; no regex). -/
def cellMatchesQuery (cell q : String) (matchCell matchCase : Bool) : Bool :=
  let cl := if matchCase then cell.data else lowerChars cell
  let ql := if matchCase then q.data else lowerChars q
  if matchCell then decide (cl = ql) else !(q == "") && containsSeq ql cl

/-- `createTextFinder(q).findAll()` over the whole sheet: one match per
matching cell, in row-major order; only the (1-based) row numbers are kept,
which is all `fts` uses. -/
def ftsMatchRows (s : Sheet) (q : String) (matchCell matchCase : Bool) : List Nat :=
  s.rows.enum.flatMap
    (fun p => (p.snd.filter (fun cell => cellMatchesQuery cell q matchCell matchCase)).map
      (fun _ => p.fst + 1))

/-- `fts({q, matchCell, matchCase})`: map every match back through
`_getObject(row, rowNum - 2)`; in JS arithmetic that always yields
`_key = rowNum`, encoded directly here. -/
def Collection.fts (c : Collection) (q : String) (matchCell matchCase : Bool) :
    List Obj × Collection :=
  let ci := c.initOp
  ((ftsMatchRows ci.sheet q matchCell matchCase).map
      (fun rn => getRowAsObjectKey (ci.sheet.readRow rn ci.columnCount) rn ci.headerRow),
    ci)

/-- `lookup(val, key)`: branch on `!this._data === null`; the `fts` arm is
an exact-cell, case-insensitive scan filtered client-side with
`r[key] === val`. -/
def Collection.lookup (c : Collection) (v : Val) (key : String) :
    Option Obj × Collection :=
  if lookupCond c.dataCache then c.findOp (some v) key
  else
    let fres := c.fts (valToKey (some v)) true false
    (fres.fst.find? (fun r => decide (objGet r key = some v)), fres.snd)

/-! ## Basic lemmas about the association-list primitives -/

lemma assocGet_assocSet {α : Type} (m : List (String × α)) (k : String) (v : α)
    (s : String) :
    assocGet (assocSet m k v) s = if k == s then some v else assocGet m s := by
  induction m with
  | nil =>
      cases h : (k == s) <;> simp [assocSet, assocGet, h]
  | cons p t ih =>
      cases hpk : (p.fst == k) with
      | true =>
          have hpk2 : p.fst = k := by simpa using hpk
          cases hks : (k == s) with
          | true => simp [assocSet, hpk, assocGet, hks]
          | false =>
              have h2 : (p.fst == s) = false := by
                subst hpk2
                simpa using hks
              simp [assocSet, hpk, assocGet, hks, h2]
      | false =>
          cases hks : (k == s) with
          | true =>
              have hks2 : k = s := by simpa using hks
              have h2 : (p.fst == s) = false := by
                have : p.fst ≠ k := by simpa using hpk
                subst hks2
                simpa using this
              simp [assocSet, hpk, assocGet, ih, hks, h2]
          | false => simp [assocSet, hpk, assocGet, ih, hks]

lemma objGet_objSet (o : Obj) (k : String) (v : Val) (s : String) :
    objGet (objSet o k v) s = if k == s then some v else objGet o s :=
  assocGet_assocSet o k v s

/-- Folding property assignments whose keys all avoid `k` leaves `k`'s
binding unchanged. -/
lemma objGet_foldl_objSet_not_mem {β : Type} (l : List β) (f : β → String)
    (g : β → Val) (o : Obj) (k : String) (h : ∀ b ∈ l, f b ≠ k) :
    objGet (l.foldl (fun acc b => objSet acc (f b) (g b)) o) k = objGet o k := by
  induction l generalizing o with
  | nil => rfl
  | cons b t ih =>
      have hb : f b ≠ k := h b (List.mem_cons_self b t)
      have ht : ∀ x ∈ t, f x ≠ k := fun x hx => h x (List.mem_cons_of_mem b hx)
      have hbeq : (f b == k) = false := by simpa using hb
      calc objGet ((b :: t).foldl (fun acc x => objSet acc (f x) (g x)) o) k
          = objGet (t.foldl (fun acc x => objSet acc (f x) (g x)) (objSet o (f b) (g b))) k := rfl
        _ = objGet (objSet o (f b) (g b)) k := ih _ ht
        _ = objGet o k := by rw [objGet_objSet, hbeq]; simp

/-- The reserved `_key` slot of a mapped row, as long as no sheet header is
itself named `_key`. -/
lemma getRowAsObjectKey_key (row : List String) (kv : Nat) (headers : List String)
    (h : "_key" ∉ headers) :
    objGet (getRowAsObjectKey row kv headers) "_key" = some (Val.vnum kv) := by
  have hmem : ∀ p ∈ headers.enum, p.snd ≠ "_key" := by
    intro p hp hcontra
    apply h
    have hmap : p.snd ∈ headers.enum.map Prod.snd := List.mem_map_of_mem Prod.snd hp
    rw [List.enum_map_snd] at hmap
    exact hcontra ▸ hmap
  have := objGet_foldl_objSet_not_mem headers.enum (fun p => p.snd)
    (fun p => Val.vstr (row.getD p.fst "")) [("_key", Val.vnum kv)] "_key" hmem
  simpa [getRowAsObjectKey, objGet, assocGet] using this

/-! ## Cache-refresh lemmas -/

/-- All three caches empty, and the next `data()` / `index(f)` /
`related(f)` recomputed from the collection's current sheet. -/
def refreshedAt (c : Collection) (f : String) : Prop :=
  c.dataCache = none ∧ c.indexCache = [] ∧ c.relatedCache = [] ∧
  (c.dataOp).fst = freshData c ∧
  (c.indexOp f).fst = buildIndex (freshData c) f ∧
  (c.relatedOp f).fst = buildRelated (freshData c) f

lemma refreshedAt_clearCached (c : Collection) (f : String) :
    refreshedAt (clearCached c) f :=
  ⟨rfl, rfl, rfl, rfl, rfl, rfl⟩

lemma initOp_sheet (c : Collection) : (c.initOp).sheet = c.sheet := rfl

lemma clearCached_sheet (c : Collection) : (clearCached c).sheet = c.sheet := rfl

lemma finishMutation_ok {out : List Obj} {res : Except Err Unit × Collection}
    {v : List Obj} {c2 : Collection} (h : finishMutation out res = (Except.ok v, c2)) :
    ∃ cx, c2 = clearCached cx := by
  rcases res with ⟨e | u, c1⟩
  · simp [finishMutation] at h
  · exact ⟨c1, (congrArg Prod.snd h).symm⟩

lemma update_ok_clear {c : Collection} {records v : List Obj} {c2 : Collection}
    (hne : records ≠ []) (h : c.update records = (Except.ok v, c2)) :
    ∃ cx, c2 = clearCached cx := by
  cases records with
  | nil => exact absurd rfl hne
  | cons a l =>
      simp only [Collection.update, List.isEmpty_cons, Bool.false_eq_true,
        if_false] at h
      exact finishMutation_ok h

lemma addOne_ok_clear {c : Collection} {rec : Obj} {r : Obj} {c2 : Collection}
    (h : c.addOne rec = (Except.ok r, c2)) : ∃ cx, c2 = clearCached cx := by
  simp only [Collection.addOne] at h
  split at h
  · exact absurd (congrArg Prod.fst h) (by simp)
  · exact ⟨_, (congrArg Prod.snd h).symm⟩

lemma add_ok_clear {c : Collection} {records v : List Obj} {c2 : Collection}
    (hne : records ≠ []) (h : c.add records = (Except.ok v, c2)) :
    ∃ cx, c2 = clearCached cx := by
  cases records with
  | nil => exact absurd rfl hne
  | cons a l =>
      simp only [Collection.add, List.isEmpty_cons, Bool.false_eq_true,
        if_false] at h
      split at h
      · exact absurd (congrArg Prod.fst h) (by simp)
      · exact ⟨_, (congrArg Prod.snd h).symm⟩

lemma upsert_ok_clear {c : Collection} {records v : List Obj} {c2 : Collection}
    (hne : records ≠ []) (h : c.upsert records = (Except.ok v, c2)) :
    ∃ cx, c2 = clearCached cx := by
  cases records with
  | nil => exact absurd rfl hne
  | cons a l =>
      simp only [Collection.upsert, List.isEmpty_cons, Bool.false_eq_true,
        if_false] at h
      split at h
      · exact absurd (congrArg Prod.fst h) (by simp)
      · split at h
        · exact absurd (congrArg Prod.fst h) (by simp)
        · exact ⟨_, (congrArg Prod.snd h).symm⟩

lemma patchGo_cons_ok {c : Collection} {p : Obj} {rest : List Obj}
    {lst : List Obj} {c1 : Collection}
    (h : patchGo c (p :: rest) = (Except.ok lst, c1)) : lst ≠ [] := by
  simp only [patchGo] at h
  split at h
  · exact absurd (congrArg Prod.fst h) (by simp)
  · split at h
    · exact absurd (congrArg Prod.fst h) (by simp)
    · have hfst := congrArg Prod.fst h
      have hcons := Except.ok.inj hfst
      exact fun hl => List.cons_ne_nil _ _ (hl ▸ hcons)

lemma patch_ok_clear {c : Collection} {patches v : List Obj} {c2 : Collection}
    (hne : patches ≠ []) (h : c.patch patches = (Except.ok v, c2)) :
    ∃ cx, c2 = clearCached cx := by
  cases patches with
  | nil => exact absurd rfl hne
  | cons p rest =>
      simp only [Collection.patch, List.isEmpty_cons, Bool.false_eq_true,
        if_false] at h
      rcases hgo : patchGo (Collection.initOp c) (p :: rest) with ⟨res, c1⟩
      rcases res with e | merged
      · rw [hgo] at h
        exact absurd (congrArg Prod.fst h) (by simp)
      · rw [hgo] at h
        exact update_ok_clear (patchGo_cons_ok hgo) h

lemma deleteOp_ok_clear {c : Collection} {records : List Obj} {u : Unit}
    {c2 : Collection} (h : c.deleteOp records = (Except.ok u, c2)) :
    ∃ cx, c2 = clearCached cx := by
  simp only [Collection.deleteOp] at h
  split at h
  · exact absurd (congrArg Prod.fst h) (by simp)
  · exact ⟨_, (congrArg Prod.snd h).symm⟩

lemma batch_ok_clear {c : Collection} {records v : List Obj}
    {lockFreeAtMs : Option Nat} {c2 : Collection} (hne : records ≠ [])
    (h : c.batch records lockFreeAtMs = (Except.ok v, c2)) :
    ∃ cx, c2 = clearCached cx := by
  cases records with
  | nil => exact absurd rfl hne
  | cons a l =>
      simp only [Collection.batch, List.isEmpty_cons, Bool.false_eq_true,
        if_false] at h
      split at h
      · exact absurd (congrArg Prod.fst h) (by simp)
      · exact ⟨_, (congrArg Prod.snd h).symm⟩

lemma refreshedAt_of_clear {c2 : Collection} {f : String}
    (h : ∃ cx, c2 = clearCached cx) : refreshedAt c2 f := by
  obtain ⟨cx, rfl⟩ := h
  exact refreshedAt_clearCached cx f

/-- Claim C1: every successful mutating call — `addOne`, `add`, `update`,
`upsert`, `patch`, `delete`, `batch` (with records to act on where the
source has an empty-input guard) — leaves all three caches cleared, so the
next `data()`, `index(f)` or `related(f)` recomputes from the post-mutation
sheet rather than serving a stale cache. -/
theorem sda_C1_mutations_clear_caches (c : Collection) (rec : Obj)
    (recs : List Obj) (lockFreeAtMs : Option Nat) (f : String) :
    (∀ r c2, c.addOne rec = (Except.ok r, c2) → refreshedAt c2 f) ∧
    (∀ out c2, recs ≠ [] → c.add recs = (Except.ok out, c2) → refreshedAt c2 f) ∧
    (∀ out c2, recs ≠ [] → c.update recs = (Except.ok out, c2) → refreshedAt c2 f) ∧
    (∀ out c2, recs ≠ [] → c.upsert recs = (Except.ok out, c2) → refreshedAt c2 f) ∧
    (∀ out c2, recs ≠ [] → c.patch recs = (Except.ok out, c2) → refreshedAt c2 f) ∧
    (∀ u c2, c.deleteOp recs = (Except.ok u, c2) → refreshedAt c2 f) ∧
    (∀ out c2, recs ≠ [] → c.batch recs lockFreeAtMs = (Except.ok out, c2) →
      refreshedAt c2 f) := by
  refine ⟨?_, ?_, ?_, ?_, ?_, ?_, ?_⟩
  · exact fun r c2 h => refreshedAt_of_clear (addOne_ok_clear h)
  · exact fun out c2 hne h => refreshedAt_of_clear (add_ok_clear hne h)
  · exact fun out c2 hne h => refreshedAt_of_clear (update_ok_clear hne h)
  · exact fun out c2 hne h => refreshedAt_of_clear (upsert_ok_clear hne h)
  · exact fun out c2 hne h => refreshedAt_of_clear (patch_ok_clear hne h)
  · exact fun u c2 h => refreshedAt_of_clear (deleteOp_ok_clear h)
  · exact fun out c2 hne h => refreshedAt_of_clear (batch_ok_clear hne h)

/-- Claim C10: on an empty input list, `add`, `update`, `patch` and `batch`
return an empty result at once and hand back the collection state entirely
unchanged — same sheet, and all caches exactly as they were (in particular
not cleared). -/
theorem sda_C10_empty_input_noop (c : Collection) (lockFreeAtMs : Option Nat) :
    c.add [] = (Except.ok [], c) ∧
    c.update [] = (Except.ok [], c) ∧
    c.patch [] = (Except.ok [], c) ∧
    c.batch [] lockFreeAtMs = (Except.ok [], c) :=
  ⟨rfl, rfl, rfl, rfl⟩

/-- A small collection used to instantiate C1: header `id`, one data row. -/
def sdaC1c : Collection := ⟨⟨[["id"], ["a"]]⟩, 0, none, [], [], [], 0⟩

/-- A persisted record of `sdaC1c` (row 2). -/
def sdaC1r : Obj := [("id", Val.vstr "a"), ("_key", Val.vnum 2)]

/-- Witness for C1: a successful one-record `update` leaves the collection
with cleared caches and fresh reads. -/
theorem sda_C1_witness :
    refreshedAt (⟨⟨[["id"], ["a"]]⟩, 0, none, [], [], ["id"], 1⟩ : Collection) "id" :=
  (sda_C1_mutations_clear_caches sdaC1c [] [sdaC1r] none "id").2.2.1
    [sdaC1r] ⟨⟨[["id"], ["a"]]⟩, 0, none, [], [], ["id"], 1⟩
    (List.cons_ne_nil _ _) rfl

/-- Claim C2: for a keyed record at the head of the list passed to `update`
or `delete`, if the stored primary-key cell at its row differs — compared
through the JS `String(...)` coercion — from the primary-key value about to
be written, the call fails with `StaleWriteError` and the sheet (in
particular that row) is not written. -/
theorem sda_C2_stale_write_detected (c : Collection) (rec : Obj)
    (rest : List Obj) (k : Nat) (hkey : keyNatOf rec = some k)
    (hdrift : (c.initOp).sheet.rangeCellStr k (c.initOp).columnCount
        (c.initOp).pkColumnIndex ≠
      valToKey (((c.initOp).headerRow.map (objGet rec)).getD
        (c.initOp).pkColumnIndex none)) :
    c.update (rec :: rest) = (Except.error Err.staleWrite, c.initOp) ∧
    c.deleteOp (rec :: rest) = (Except.error Err.staleWrite, c.initOp) ∧
    (c.initOp).sheet = c.sheet := by
  have hgo : updateRowsGo c.initOp (rec :: rest) =
      (Except.error Err.staleWrite, c.initOp) := by
    simp only [updateRowsGo, hkey]
    rw [if_pos hdrift]
  have hgo2 : deleteRowsGo c.initOp (rec :: rest) =
      (Except.error Err.staleWrite, c.initOp) := by
    simp only [deleteRowsGo, hkey]
    rw [if_pos hdrift]
  refine ⟨?_, ?_, rfl⟩
  · simp only [Collection.update, List.isEmpty_cons, Bool.false_eq_true,
      if_false, hgo, finishMutation]
  · simp only [Collection.deleteOp, hgo2]

/-- A collection whose data row 2 was blanked out-of-band. -/
def sdaC2c : Collection := ⟨⟨[["id"], [""]]⟩, 0, none, [], [], [], 0⟩

/-- The record previously read from row 2 of `sdaC2c`. -/
def sdaC2r : Obj := [("id", Val.vstr "a"), ("_key", Val.vnum 2)]

/-- Witness for C2: externally blanking the record's row makes `update` and
`delete` fail with the stale-write error, leaving the sheet untouched. -/
theorem sda_C2_witness :
    sdaC2c.update [sdaC2r] = (Except.error Err.staleWrite, sdaC2c.initOp) ∧
    sdaC2c.deleteOp [sdaC2r] = (Except.error Err.staleWrite, sdaC2c.initOp) ∧
    (sdaC2c.initOp).sheet = sdaC2c.sheet :=
  sda_C2_stale_write_detected sdaC2c sdaC2r [] 2 rfl (by decide)

/-- Claim C3 (amended): `batch` on a non-empty list acquires the script lock
with a bounded wait of 30 seconds — `tryLock(30 * 1000)` — not the claimed
10 seconds; when the lock is not acquired within that wait it fails with
`LockTimeoutError` and the backing sheet is completely untouched. -/
theorem sda_C3_amended_lock_timeout (c : Collection) (records : List Obj)
    (lockFreeAtMs : Option Nat) (hne : records ≠ [])
    (hnolock : tryLockAcquired lockFreeAtMs batchLockWaitMs = false) :
    batchLockWaitMs = 30 * 1000 ∧
    c.batch records lockFreeAtMs = (Except.error Err.lockTimeout, c.initOp) ∧
    (c.initOp).sheet = c.sheet := by
  refine ⟨rfl, ?_, rfl⟩
  cases records with
  | nil => exact absurd rfl hne
  | cons a l =>
      simp only [Collection.batch, List.isEmpty_cons, Bool.false_eq_true, if_false]
      rw [if_pos hnolock]

/-- A one-row collection for the C3 scenario. -/
def sdaC3c : Collection := ⟨⟨[["id"], ["a"]]⟩, 0, none, [], [], [], 0⟩

/-- A new (keyless) record to batch into `sdaC3c`. -/
def sdaC3r : Obj := [("id", Val.vstr "b")]

/-- Counterexample to C3 as stated: with a lock that only becomes free 15
seconds into the call — i.e. not acquired within the claimed ≈10 second
wait — `batch` does not fail with `LockTimeoutError` but proceeds,
because the code's wait is `30 * 1000` ms. -/
theorem sda_C3_counterexample :
    10 * 1000 < 15 * 1000 ∧
    tryLockAcquired (some (15 * 1000)) batchLockWaitMs = true ∧
    (sdaC3c.batch [sdaC3r] (some (15 * 1000))).fst = Except.ok [sdaC3r] ∧
    Except.ok [sdaC3r] ≠ (Except.error Err.lockTimeout : Except Err (List Obj)) :=
  ⟨by norm_num, rfl, rfl, fun hcontra => Except.noConfusion hcontra⟩

/-- Witness for C3 (amended): a lock that never frees up makes `batch` fail
with the lock-timeout error and leaves the sheet untouched. -/
theorem sda_C3_witness :
    batchLockWaitMs = 30 * 1000 ∧
    sdaC3c.batch [sdaC3r] none = (Except.error Err.lockTimeout, sdaC3c.initOp) ∧
    (sdaC3c.initOp).sheet = sdaC3c.sheet :=
  sda_C3_amended_lock_timeout sdaC3c [sdaC3r] none (List.cons_ne_nil _ _) rfl

/-- Claim C5: once one preflight commit action has run successfully, every
further commit action on that preflight state fails with
`TransactionAlreadyCompleteError` and leaves the collection untouched (the
first commit's write happened exactly once), while the `record`/`records`
accessors still answer from the unchanged validated set. -/
theorem sda_C5_preflight_single_commit (p : Preflight) (c : Collection)
    (k1 k2 : CommitKind) (lock1 lock2 : Option Nat) (v : List Obj)
    (p2 : Preflight) (c2 : Collection)
    (h : commitOp k1 p c lock1 = (Except.ok v, p2, c2)) :
    commitOp k2 p2 c2 lock2 = (Except.error Err.txComplete, p2, c2) ∧
    preflightRecords p2 = preflightRecords p ∧
    preflightRecord p2 = preflightRecord p := by
  have hp2 : p2.transacted = true ∧ p2.recordsToSave = p.recordsToSave := by
    unfold commitOp at h
    by_cases ht : p.transacted = true
    · rw [if_pos ht] at h
      exact absurd (congrArg (fun x => x.fst) h) (by simp)
    · rw [if_neg ht] at h
      split at h
      · have hmid : ({ recordsToSave := p.recordsToSave, transacted := true } :
            Preflight) = p2 := congrArg (fun x => x.snd.fst) h
        exact ⟨by rw [← hmid], by rw [← hmid]⟩
      · exact absurd (congrArg (fun x => x.fst) h) (by simp)
  refine ⟨?_, ?_, ?_⟩
  · unfold commitOp
    rw [if_pos hp2.1]
  · unfold preflightRecords
    rw [hp2.2]
  · unfold preflightRecord
    rw [hp2.2]

/-- A trivial collection for the C5 witness. -/
def sdaC5c : Collection := ⟨⟨[["id"]]⟩, 0, none, [], [], [], 0⟩

/-- Witness for C5: after a first successful commit (an `update` of the
empty validated set), a second commit fails with the transaction-complete
error and changes nothing. -/
theorem sda_C5_witness :
    commitOp CommitKind.cbatch ⟨[], true⟩ sdaC5c none =
      (Except.error Err.txComplete, ⟨[], true⟩, sdaC5c) ∧
    preflightRecords ⟨[], true⟩ = preflightRecords ⟨[], false⟩ ∧
    preflightRecord ⟨[], true⟩ = preflightRecord ⟨[], false⟩ :=
  sda_C5_preflight_single_commit ⟨[], false⟩ sdaC5c CommitKind.cupdate
    CommitKind.cbatch none none [] ⟨[], true⟩ sdaC5c rfl

/-- A collection whose data cache is materialised and, for contrast with the
live sheet, holds a record the (empty) sheet does not. -/
def sdaC9c : Collection :=
  ⟨⟨[["id"]]⟩, 0, some [[("id", Val.vstr "a"), ("_key", Val.vnum 2)]],
    [], [], ["id"], 1⟩

/-- Claim C9 is false of the code (code bug): the branch condition
`!this._data === null` of `lookup` compares a Boolean with `null`, so it is
`false` for every cache state; `lookup` therefore always takes the `fts`
scan — here returning nothing from the live sheet — even though the cache
is materialised and the cached-index fast path (`find`) would return the
record. -/
theorem sda_C9_lookup_never_fast_path :
    (∀ d : Option (List Obj), lookupCond d = false) ∧
    (sdaC9c.lookup (Val.vstr "a") "id").fst = none ∧
    (sdaC9c.findOp (some (Val.vstr "a")) "id").fst =
      some [("id", Val.vstr "a"), ("_key", Val.vnum 2)] :=
  ⟨fun _ => rfl, rfl, rfl⟩

/-! ## Lemmas for the batch block rewrite -/

lemma wipeSheet_rows (s : Sheet) (h : 2 ≤ s.rows.length) :
    (wipeSheet s).rows = [s.rows.headD [], List.replicate s.lastColumn ""] := by
  rcases s with ⟨rows⟩
  match rows with
  | [] => simp at h
  | [a] => simp at h
  | a :: b :: t =>
      cases t with
      | nil => simp [wipeSheet, Sheet.lastRow, Sheet.setRow, Sheet.deleteRows]
      | cons b2 t2 =>
          simp [wipeSheet, Sheet.lastRow, Sheet.setRow, Sheet.deleteRows,
            List.take_succ_cons, List.drop_succ_cons]
          omega

lemma setRowsFrom_append (pre : List (List String)) (block : List (List String)) :
    (Sheet.mk pre).setRowsFrom (pre.length + 1) block = ⟨pre ++ block⟩ := by
  induction block generalizing pre with
  | nil => simp [Sheet.setRowsFrom]
  | cons v vs ih =>
      have hrow : (Sheet.mk pre).setRow (pre.length + 1) v = ⟨pre ++ [v]⟩ := by
        simp [Sheet.setRow]
      have hlen : (pre ++ [v]).length + 1 = pre.length + 1 + 1 := by simp
      calc (Sheet.mk pre).setRowsFrom (pre.length + 1) (v :: vs)
          = ((Sheet.mk pre).setRow (pre.length + 1) v).setRowsFrom (pre.length + 1 + 1) vs := rfl
        _ = (Sheet.mk (pre ++ [v])).setRowsFrom ((pre ++ [v]).length + 1) vs := by
              rw [hrow, hlen]
        _ = ⟨(pre ++ [v]) ++ vs⟩ := ih (pre ++ [v])
        _ = ⟨pre ++ v :: vs⟩ := by simp

lemma setRowsFrom_two (a blank x : List String) (xs : List (List String)) :
    (Sheet.mk [a, blank]).setRowsFrom 2 (x :: xs) = ⟨a :: x :: xs⟩ := by
  have hrow : (Sheet.mk [a, blank]).setRow 2 x = ⟨[a, x]⟩ := by
    simp [Sheet.setRow]
  calc (Sheet.mk [a, blank]).setRowsFrom 2 (x :: xs)
      = ((Sheet.mk [a, blank]).setRow 2 x).setRowsFrom 3 xs := rfl
    _ = (Sheet.mk [a, x]).setRowsFrom ([a, x].length + 1) xs := by
          rw [hrow]
          rfl
    _ = ⟨[a, x] ++ xs⟩ := setRowsFrom_append [a, x] xs
    _ = ⟨a :: x :: xs⟩ := by simp

lemma keyNatOf_vnum {u : Obj} {k : Nat} (h : keyNatOf u = some k) :
    objGet u "_key" = some (Val.vnum k) := by
  unfold keyNatOf at h
  split at h
  · next n heq =>
      split at h
      · exact absurd h (by simp)
      · rw [heq, Option.some.inj h]
  · exact absurd h (by simp)

/-- Claim C4 (amended): a lock-acquiring `batch` of one keyed record `u`
(with an in-range `_key = k`) plus keyless records performs one wholesale
rewrite of the block below the header: the data block with `u`'s row
replaced at offset `k - 2` and the keyless rows appended after the existing
rows. The call returns the records as validated — the keyed record still
carries its `_key`, but the appended records are NOT given freshly computed
`_key`s (they come back keyless). -/
theorem sda_C4_amended_batch_rewrite (c : Collection) (u : Obj)
    (adds : List Obj) (lockFreeAtMs : Option Nat) (k : Nat)
    (hkey : keyNatOf u = some k) (hk2 : 2 ≤ k)
    (hkle : k ≤ ((c.sheet.valuesAll c.sheet.lastColumn).tail).length + 1)
    (hadds : ∀ a ∈ adds, objGet a "_key" = none)
    (hlock : tryLockAcquired lockFreeAtMs batchLockWaitMs = true) :
    c.batch (u :: adds) lockFreeAtMs =
      (Except.ok (u :: adds),
       clearCached { c.initOp with sheet := Sheet.mk (c.sheet.rows.headD [] ::
         (((c.sheet.valuesAll c.sheet.lastColumn).tail).set (k - 2)
            (((c.initOp).headerRow.map (objGet u)).map valToCell) ++
          adds.map (fun a => ((c.initOp).headerRow.map (objGet a)).map valToCell))) }) := by
  have hkobj : objGet u "_key" = some (Val.vnum k) := keyNatOf_vnum hkey
  have hdlen : ((c.sheet.valuesAll c.sheet.lastColumn).tail).length =
      c.sheet.rows.length - 1 := by
    simp [Sheet.valuesAll]
  have hrows2 : 2 ≤ c.sheet.rows.length := by omega
  have hrange : k - 2 < ((c.sheet.valuesAll c.sheet.lastColumn).tail).length := by
    omega
  have hupd : (u :: adds).filter (fun r => (objGet r "_key").isSome) = [u] := by
    rw [List.filter_cons_of_pos (by simp [hkobj])]
    rw [List.filter_eq_nil_iff.mpr]
    intro a ha
    simp [hadds a ha]
  have haddsf : (u :: adds).filter (fun r => (objGet r "_key").isNone) = adds := by
    rw [List.filter_cons_of_neg (by simp [hkobj])]
    rw [List.filter_eq_self.mpr]
    intro a ha
    simp [hadds a ha]
  have hoff : batchOffset u = k - 2 := by
    simp [batchOffset, hkobj, ROW_INDEX_OFFSET]
  simp only [Collection.batch, List.isEmpty_cons, Bool.false_eq_true, if_false,
    hupd, haddsf, List.foldl_cons, List.foldl_nil, hoff, hlock, initOp_sheet]
  rw [if_neg (by simp)]
  rw [spliceReplace, if_pos hrange]
  have hwipe : (wipeSheet c.sheet).rows =
      [c.sheet.rows.headD [], List.replicate c.sheet.lastColumn ""] :=
    wipeSheet_rows c.sheet hrows2
  have hblock : ∃ x xs, ((c.sheet.valuesAll c.sheet.lastColumn).tail).set (k - 2)
      (((c.initOp).headerRow.map (objGet u)).map valToCell) ++
      adds.map (fun a => ((c.initOp).headerRow.map (objGet a)).map valToCell) = x :: xs := by
    rcases hd : (c.sheet.valuesAll c.sheet.lastColumn).tail with _ | ⟨d0, drest⟩
    · rw [hd] at hrange
      simp at hrange
    · rcases Nat.eq_zero_or_pos (k - 2) with hz | hp
      · rw [hz]
        exact ⟨_, _, rfl⟩
      · obtain ⟨m, hm⟩ := Nat.exists_eq_add_of_lt hp
        rw [hm, Nat.zero_add, List.set_cons_succ]
        exact ⟨_, _, rfl⟩
  obtain ⟨x, xs, hblock⟩ := hblock
  have : wipeSheet c.sheet = Sheet.mk [c.sheet.rows.headD [],
      List.replicate c.sheet.lastColumn ""] := by
    cases hws : wipeSheet c.sheet
    rw [hws] at hwipe
    simp only [Sheet.mk.injEq] at hwipe
    rw [hwipe]
  rw [this, hblock, setRowsFrom_two]

/-- A one-data-row collection for the C4 scenario. -/
def sdaC4c : Collection := ⟨⟨[["id"], ["a"]]⟩, 0, none, [], [], [], 0⟩

/-- A keyless (new) record handed to `batch`. -/
def sdaC4r : Obj := [("id", Val.vstr "b")]

/-- The keyed (existing) record of the C4 witness. -/
def sdaC4u : Obj := [("id", Val.vstr "A"), ("_key", Val.vnum 2)]

/-- A second keyless record of the C4 witness. -/
def sdaC4a : Obj := [("id", Val.vstr "c")]

/-- Counterexample to C4 as stated: a lock-acquiring `batch` of one record
without `_key` appends its row, but the returned record carries NO freshly
computed `_key` — contradicting "every returned record (updates and adds
alike) carries its final `_key`". -/
theorem sda_C4_counterexample :
    (sdaC4c.batch [sdaC4r] (some 0)).fst = Except.ok [[("id", Val.vstr "b")]] ∧
    objGet [("id", Val.vstr "b")] "_key" = none :=
  ⟨rfl, rfl⟩

/-- Witness for C4 (amended): one keyed update at `_key = 2` plus one
keyless add, under an immediately free lock. -/
theorem sda_C4_witness :
    sdaC4c.batch (sdaC4u :: [sdaC4a]) (some 0) =
      (Except.ok (sdaC4u :: [sdaC4a]),
       clearCached { sdaC4c.initOp with sheet := Sheet.mk (sdaC4c.sheet.rows.headD [] ::
         (((sdaC4c.sheet.valuesAll sdaC4c.sheet.lastColumn).tail).set (2 - 2)
            (((sdaC4c.initOp).headerRow.map (objGet sdaC4u)).map valToCell) ++
          [sdaC4a].map (fun a =>
            ((sdaC4c.initOp).headerRow.map (objGet a)).map valToCell))) }) :=
  sda_C4_amended_batch_rewrite sdaC4c sdaC4u [sdaC4a] (some 0) 2 rfl
    (by decide) (by decide) (by decide) rfl

/-! ## Lemmas for the unique index -/

lemma buildIndex_isSome (d : List Obj) (key s : String) :
    (assocGet (buildIndex d key) s).isSome =
      d.any (fun r => valToKey (objGet r key) == s) := by
  suffices h : ∀ acc : List (String × Obj),
      (assocGet (d.foldl (fun m r => assocSet m (valToKey (objGet r key)) r) acc) s).isSome =
      ((assocGet acc s).isSome || d.any (fun r => valToKey (objGet r key) == s)) by
    simpa [buildIndex, assocGet] using h []
  induction d with
  | nil => intro acc; simp
  | cons r t ih =>
      intro acc
      have h1 := ih (assocSet acc (valToKey (objGet r key)) r)
      simp only [List.foldl_cons, h1, assocGet_assocSet, List.any_cons]
      cases hks : (valToKey (objGet r key) == s) <;>
        simp [hks, Bool.or_comm, Bool.or_left_comm]

/-- Claim C6: under a not-yet-built index for `prop`, `enforceUnique`
signals `ConflictError` exactly when another record collides on `prop`: for
a record without truthy `_key`, when any record of `data()` has a
(string-coerced) equal value; for a record with `_key`, when a record with
a different `_key` has an equal value. When no such record exists it
returns without error (the only error it ever raises is the conflict). -/
theorem sda_C6_enforce_unique (c : Collection) (rec : Obj) (prop : String)
    (hidx : assocGet c.indexCache prop = none) :
    (truthyVal (objGet rec "_key") = false →
      (((c.enforceUniqueOp rec prop).fst = Except.error Err.conflict) ↔
        ∃ oth ∈ (c.dataOp).fst,
          valToKey (objGet oth prop) = valToKey (objGet rec prop))) ∧
    (truthyVal (objGet rec "_key") = true →
      (((c.enforceUniqueOp rec prop).fst = Except.error Err.conflict) ↔
        ∃ oth ∈ (c.dataOp).fst,
          objGet oth "_key" ≠ objGet rec "_key" ∧
          objGet oth prop = objGet rec prop)) ∧
    ((c.enforceUniqueOp rec prop).fst = Except.error Err.conflict ∨
      (c.enforceUniqueOp rec prop).fst = Except.ok ()) := by
  have hiff : ∀ b : Bool,
      ((if b = true then Except.error Err.conflict else (Except.ok () : Except Err Unit)) =
        Except.error Err.conflict) ↔ b = true := by
    intro b
    cases b <;> simp
  by_cases h0 : truthyVal (objGet rec "_key") = false
  · have hcase : (c.enforceUniqueOp rec prop).fst =
        (if (assocGet (buildIndex (c.dataOp).fst prop)
            (valToKey (objGet rec prop))).isSome = true then
          Except.error Err.conflict else Except.ok ()) := by
      simp only [Collection.enforceUniqueOp, h0, if_true, Collection.indexOp, hidx]
      split <;> rfl
    refine ⟨fun _ => ?_, fun h1 => absurd h1 (by simp [h0]), ?_⟩
    · rw [hcase, hiff, buildIndex_isSome, List.any_eq_true]
      simp
    · rw [hcase]
      split
      · exact Or.inl rfl
      · exact Or.inr rfl
  · have h1 : truthyVal (objGet rec "_key") = true := by
      revert h0
      cases truthyVal (objGet rec "_key") <;> simp
    have hcase : (c.enforceUniqueOp rec prop).fst =
        (if ((c.dataOp).fst.filter
            (fun oth => !(decide (objGet oth "_key" = objGet rec "_key")))).any
            (fun oth => decide (objGet oth prop = objGet rec prop)) = true then
          Except.error Err.conflict else Except.ok ()) := by
      simp only [Collection.enforceUniqueOp, h1]
      rw [if_neg (by simp)]
      split <;> rfl
    refine ⟨fun hf => absurd hf (by simp [h1]), fun _ => ?_, ?_⟩
    · rw [hcase, hiff, List.any_eq_true]
      constructor
      · rintro ⟨oth, hmem, hp⟩
        rw [List.mem_filter] at hmem
        refine ⟨oth, hmem.1, ?_, by simpa using hp⟩
        simpa using hmem.2
      · rintro ⟨oth, hmem, hne, hp⟩
        refine ⟨oth, ?_, by simpa using hp⟩
        rw [List.mem_filter]
        exact ⟨hmem, by simpa using hne⟩
    · rw [hcase]
      split
      · exact Or.inl rfl
      · exact Or.inr rfl

/-- A collection with two distinct persisted values for the C6 witness. -/
def sdaC6c : Collection := ⟨⟨[["id"], ["a"], ["b"]]⟩, 0, none, [], [], [], 0⟩

/-- A new (keyless) record colliding on `id` with row 2 of `sdaC6c`. -/
def sdaC6r : Obj := [("id", Val.vstr "a")]

/-- Witness for C6, at a keyless record whose `id` collides with a stored
record. -/
theorem sda_C6_witness :
    (truthyVal (objGet sdaC6r "_key") = false →
      (((sdaC6c.enforceUniqueOp sdaC6r "id").fst = Except.error Err.conflict) ↔
        ∃ oth ∈ (sdaC6c.dataOp).fst,
          valToKey (objGet oth "id") = valToKey (objGet sdaC6r "id"))) ∧
    (truthyVal (objGet sdaC6r "_key") = true →
      (((sdaC6c.enforceUniqueOp sdaC6r "id").fst = Except.error Err.conflict) ↔
        ∃ oth ∈ (sdaC6c.dataOp).fst,
          objGet oth "_key" ≠ objGet sdaC6r "_key" ∧
          objGet oth "id" = objGet sdaC6r "id")) ∧
    ((sdaC6c.enforceUniqueOp sdaC6r "id").fst = Except.error Err.conflict ∨
      (sdaC6c.enforceUniqueOp sdaC6r "id").fst = Except.ok ()) :=
  sda_C6_enforce_unique sdaC6c sdaC6r "id" rfl

/-! ## Lemmas for data() materialisation -/

lemma mem_buildRecords (pk : Nat) (hdrs : List String) :
    ∀ (rows : List (List String)) (n : Nat) (r : Obj),
      r ∈ buildRecords pk hdrs rows n ↔
      ∃ i, i < rows.length ∧ (rows.getD i []).getD pk "" ≠ "" ∧
        r = getRowAsObject (rows.getD i []) (n + i) hdrs := by
  intro rows
  induction rows with
  | nil => intro n r; simp [buildRecords]
  | cons row t ih =>
      intro n r
      by_cases hcell : row.getD pk "" ≠ ""
      · rw [show buildRecords pk hdrs (row :: t) n =
            getRowAsObject row n hdrs :: buildRecords pk hdrs t (n + 1) from by
              simp only [buildRecords]
              rw [if_pos hcell]]
        simp only [List.mem_cons, ih]
        constructor
        · rintro (rfl | ⟨i, hi, hc, hr⟩)
          · exact ⟨0, by simp only [List.length_cons]; omega, by simpa using hcell,
              by simp⟩
          · refine ⟨i + 1, by simp only [List.length_cons]; omega,
              by simpa using hc, ?_⟩
            have harith : n + (i + 1) = n + 1 + i := by omega
            rw [List.getD_cons_succ, harith]
            exact hr
        · rintro ⟨i, hi, hc, hr⟩
          cases i with
          | zero =>
              left
              simpa using hr
          | succ j =>
              right
              refine ⟨j, by simp only [List.length_cons] at hi; omega,
                by simpa using hc, ?_⟩
              have harith : n + 1 + j = n + (j + 1) := by omega
              rw [harith]
              simpa using hr
      · rw [show buildRecords pk hdrs (row :: t) n = buildRecords pk hdrs t (n + 1) from by
              simp only [buildRecords]
              rw [if_neg hcell]]
        rw [ih]
        constructor
        · rintro ⟨i, hi, hc, hr⟩
          refine ⟨i + 1, by simp only [List.length_cons]; omega,
            by simpa using hc, ?_⟩
          have harith : n + (i + 1) = n + 1 + i := by omega
          rw [List.getD_cons_succ, harith]
          exact hr
        · rintro ⟨i, hi, hc, hr⟩
          cases i with
          | zero =>
              exact absurd (by simpa using hc) (by simpa using hcell)
          | succ j =>
              refine ⟨j, by simp only [List.length_cons] at hi; omega,
                by simpa using hc, ?_⟩
              have harith : n + 1 + j = n + (j + 1) := by omega
              rw [harith]
              simpa using hr

/-- Claim C7: when `data()` materialises (empty cache, and no header named
`_key`), every below-header row at 0-based sheet index `i` whose
primary-key cell is non-blank yields the mapped record with
`_key = i + 2`, and every returned record arises this way — so rows with a
blank primary-key cell are skipped, and skipped rows do not shift the
`_key` of later records. -/
theorem sda_C7_data_keys_and_blank_rows (c : Collection)
    (hcache : c.dataCache = none)
    (hhdr : "_key" ∉ (c.sheet.valuesAll c.sheet.lastColumn).headD []) :
    (∀ i, i < ((c.sheet.valuesAll c.sheet.lastColumn).tail).length →
      ((((c.sheet.valuesAll c.sheet.lastColumn).tail).getD i []).getD
          c.pkColumnIndex "" ≠ "" →
        getRowAsObject (((c.sheet.valuesAll c.sheet.lastColumn).tail).getD i []) i
            ((c.sheet.valuesAll c.sheet.lastColumn).headD []) ∈ (c.dataOp).fst ∧
        objGet (getRowAsObject
            (((c.sheet.valuesAll c.sheet.lastColumn).tail).getD i []) i
            ((c.sheet.valuesAll c.sheet.lastColumn).headD [])) "_key" =
          some (Val.vnum (i + 2)))) ∧
    (∀ r ∈ (c.dataOp).fst, ∃ i, i < ((c.sheet.valuesAll c.sheet.lastColumn).tail).length ∧
      (((c.sheet.valuesAll c.sheet.lastColumn).tail).getD i []).getD
        c.pkColumnIndex "" ≠ "" ∧
      r = getRowAsObject (((c.sheet.valuesAll c.sheet.lastColumn).tail).getD i []) i
        ((c.sheet.valuesAll c.sheet.lastColumn).headD [])) := by
  have hd : (c.dataOp).fst = buildRecords c.pkColumnIndex
      ((c.sheet.valuesAll c.sheet.lastColumn).headD [])
      ((c.sheet.valuesAll c.sheet.lastColumn).tail) 0 := by
    simp [Collection.dataOp, hcache]
  constructor
  · intro i hi hcell
    constructor
    · rw [hd, mem_buildRecords]
      exact ⟨i, hi, hcell, by rw [Nat.zero_add]⟩
    · exact getRowAsObjectKey_key _ _ _ hhdr
  · intro r hr
    rw [hd, mem_buildRecords] at hr
    obtain ⟨i, hi, hcell, hr⟩ := hr
    exact ⟨i, hi, hcell, by rwa [Nat.zero_add] at hr⟩

/-- A collection with a blank row between two data rows, for the C7
witness. -/
def sdaC7c : Collection := ⟨⟨[["id"], ["a"], [""], ["b"]]⟩, 0, none, [], [], [], 0⟩

/-- Witness for C7: the record read at header-excluded index 2 (after a
skipped blank row) is in `data()` with `_key = 2 + 2 = 4`. -/
theorem sda_C7_witness :
    getRowAsObject ["b"] 2 ["id"] ∈ (sdaC7c.dataOp).fst ∧
    objGet (getRowAsObject ["b"] 2 ["id"]) "_key" = some (Val.vnum 4) :=
  (sda_C7_data_keys_and_blank_rows sdaC7c rfl (by decide)).1 2 (by decide) (by decide)

/-! ## addOne: the appended row and the text-finder key assignment -/

/-- The cell row `addOne` appends for a record. -/
def addOneRowCells (c : Collection) (rec : Obj) : List String :=
  ((c.initOp).headerRow.map (objGet rec)).map valToCell

/-- The text `addOne` hands to the text finder: the record's primary-key
value, string-coerced. -/
def addOneQuery (c : Collection) (rec : Obj) : String :=
  valToKey (((c.initOp).headerRow.map (objGet rec)).getD (c.initOp).pkColumnIndex none)

/-- A one-data-row collection whose last row's `id` equals the `id` about to
be added. -/
def sdaC8c : Collection := ⟨⟨[["id"], ["a"]]⟩, 0, none, [], [], [], 0⟩

/-- A new record whose `id` repeats the value already stored in the last
row of `sdaC8c`. -/
def sdaC8r : Obj := [("id", Val.vstr "a")]

/-- Counterexample to C8 as stated: `addOne` on `sdaC8c` (current row count
2) succeeds but assigns `_key = 2`, not `currentRowCount + 1 = 3` — the
text finder starts at the previous last row and matches the duplicate value
there first; and no write-time blank-cell check is involved at all. -/
theorem sda_C8_counterexample :
    (sdaC8c.addOne sdaC8r).fst =
      Except.ok [("id", Val.vstr "a"), ("_key", Val.vnum 2)] ∧
    sdaC8c.sheet.lastRow + 1 = 3 ∧
    Val.vnum 2 ≠ Val.vnum 3 :=
  ⟨rfl, rfl, by decide⟩

lemma findNextRow_after_append (c : Collection) (rec : Obj)
    (hR : 1 ≤ c.sheet.lastRow)
    (h1 : textMatches ((c.sheet.appendRow (addOneRowCells c rec)).readCell
        c.sheet.lastRow (c.initOp).pkColumnIndex) (addOneQuery c rec) = false)
    (h2 : textMatches ((c.sheet.appendRow (addOneRowCells c rec)).readCell
        (c.sheet.lastRow + 1) (c.initOp).pkColumnIndex) (addOneQuery c rec) = true) :
    findNextRow (c.sheet.appendRow (addOneRowCells c rec)) c.sheet.lastRow
      (c.sheet.appendRow (addOneRowCells c rec)).lastRow
      (c.initOp).pkColumnIndex (addOneQuery c rec) = some (c.sheet.lastRow + 1) := by
  have hlast : (c.sheet.appendRow (addOneRowCells c rec)).lastRow =
      c.sheet.lastRow + 1 := by
    simp [Sheet.appendRow, Sheet.lastRow]
  unfold findNextRow
  rw [hlast]
  have hmin : min (c.sheet.lastRow + (c.sheet.lastRow + 1) - 1)
      (c.sheet.lastRow + 1) = c.sheet.lastRow + 1 := by omega
  rw [hmin]
  rw [show c.sheet.lastRow + 1 + 1 - c.sheet.lastRow = 2 from by omega]
  rw [show List.range' c.sheet.lastRow 2 = [c.sheet.lastRow, c.sheet.lastRow + 1]
    from rfl]
  rw [List.find?_cons_of_neg _ (by simp [h1])]
  rw [List.find?_cons_of_pos _ (by simp [h2])]

/-- Claim C8 (amended): `addOne(record)` appends exactly one row in every
outcome; it assigns `_key` as the row number found by a text search for the
primary-key value over the column range that starts at the PREVIOUS last
row, so only when that search first matches at the appended row — e.g. when
the previous last row does not match — does the saved record get
`_key = currentRowCount + 1`; there is no write-time blank-cell conflict
check. -/
theorem sda_C8_amended_addOne (c : Collection) (rec : Obj) :
    (∀ e c2, c.addOne rec = (e, c2) →
      c2.sheet = c.sheet.appendRow (addOneRowCells c rec)) ∧
    (1 ≤ c.sheet.lastRow →
      textMatches ((c.sheet.appendRow (addOneRowCells c rec)).readCell
        c.sheet.lastRow (c.initOp).pkColumnIndex) (addOneQuery c rec) = false →
      textMatches ((c.sheet.appendRow (addOneRowCells c rec)).readCell
        (c.sheet.lastRow + 1) (c.initOp).pkColumnIndex) (addOneQuery c rec) = true →
      c.addOne rec =
        (Except.ok (objSet rec "_key" (Val.vnum (c.sheet.lastRow + 1))),
         clearCached { c.initOp with
           sheet := c.sheet.appendRow (addOneRowCells c rec) })) := by
  constructor
  · intro e c2 h
    simp only [Collection.addOne, initOp_sheet] at h
    split at h
    · injection h with h1 h2
      rw [← h2]
      rfl
    · injection h with h1 h2
      rw [← h2]
      rfl
  · intro hR h1 h2
    have hfind := findNextRow_after_append c rec hR h1 h2
    simp only [addOneRowCells, addOneQuery] at hfind
    simp only [Collection.addOne, initOp_sheet, addOneRowCells]
    rw [hfind]

/-- A fresh record whose `id` does not occur at the previous last row of
`sdaC8c`. -/
def sdaC8w : Obj := [("id", Val.vstr "b")]

/-- Witness for C8 (amended): with no earlier text-finder match, `addOne`
appends one row and assigns `_key = currentRowCount + 1`. -/
theorem sda_C8_witness :
    sdaC8c.addOne sdaC8w =
      (Except.ok (objSet sdaC8w "_key" (Val.vnum (sdaC8c.sheet.lastRow + 1))),
       clearCached { sdaC8c.initOp with
         sheet := sdaC8c.sheet.appendRow (addOneRowCells sdaC8c sdaC8w) }) :=
  (sda_C8_amended_addOne sdaC8c sdaC8w).2 (by decide) (by decide) (by decide)

end SdaSpec
